import Mathlib

set_option linter.unnecessarySimpa false

/-
Verification of the error-boundary subsystem of a reactive UI rendering
library (file `leptos_dom/src/components/errors.rs`).

The subsystem consists of:
 * `ErrorKey` — a location identity wrapping a string, with structural
   equality (`struct ErrorKey(Cow<str>)`, deriving `Default`/`PartialEq`/
   `Eq`/`Hash`);
 * `Errors` — a map from `ErrorKey` to a shared error value
   (`struct Errors(HashMap<ErrorKey, Arc<dyn Error>>)`) with operations
   `is_empty`, `insert`, `insert_with_default_key`, `remove`, `iter`;
 * the adapter `impl IntoView for Result<T, E>` whose `into_view` derives a
   key from the current hydration position, looks up an optional reactive
   `RwSignal<Errors>` handle in the ambient context, and updates the
   collection (remove on `Ok`, insert on `Err`), registering a deferred
   microtask cleanup on the client in the `Err`-with-handle case.

We embed the map as an association list whose `insert` erases any existing
entry for the key before consing the new one: a `HashMap` holds at most one
entry per key, and this normalisation reproduces exactly its observable
lookup/remove/iteration behaviour.  Error values are an arbitrary type `ε`
(the `Arc<dyn Error>` shared handle does not copy the value, so the value
returned by `remove` is the value that was inserted).  The adapter is a
pure function from the render result, the ambient position string and the
optional collection state to the produced view, the updated collection
state, the registered cleanup closure (if any) and whether the debug
diagnostic fired.
-/

namespace LeptosErrors

/-- Models `ErrorKey(Cow<'static, str>)`: an opaque location identity with
structural equality and hashing. -/
structure ErrorKey where
  key : String
deriving DecidableEq, Repr

/-- Models `impl<T: Into<Cow>> From<T> for ErrorKey`: any string converts
into a key by wrapping. -/
def ErrorKey.fromString (s : String) : ErrorKey :=
  ErrorKey.mk s

/-- Models `ErrorKey::default()` (the derived `Default`): `Cow::default()`
is the empty string. -/
def ErrorKey.defaultKey : ErrorKey :=
  ErrorKey.mk ""

/-- Models `Errors(HashMap<ErrorKey, Arc<dyn Error + Send + Sync>>)` as an
association list over an arbitrary error-value type `ε`.  All reachable
values hold at most one entry per key, as a `HashMap` does; the operations
below preserve this. -/
abbrev Errors (ε : Type) : Type :=
  List (ErrorKey × ε)

/-- Models `HashMap` lookup at a key (used by the claims to speak about the
contents of the collection; `HashMap::remove` also reads this entry). -/
def Errors.lookup {ε : Type} : Errors ε → ErrorKey → Option ε
  | [], _ => none
  | (k2, e) :: rest, k => if k2 = k then some e else Errors.lookup rest k

/-- Deletion of every entry stored at `k`.  On a `HashMap` there is at most
one such entry, so this is exactly the map after `HashMap::remove(&k)`. -/
def Errors.eraseKey {ε : Type} (m : Errors ε) (k : ErrorKey) : Errors ε :=
  m.filter (fun p => decide (p.1 ≠ k))

/-- Models `Errors::insert(key, error)`: `self.0.insert(key, Arc::new(error))`,
which stores `error` under `key`, overwriting any prior entry at that key. -/
def Errors.insert {ε : Type} (m : Errors ε) (k : ErrorKey) (e : ε) : Errors ε :=
  (k, e) :: Errors.eraseKey m k

/-- Models `Errors::insert_with_default_key(error)`:
`self.0.insert(Default::default(), Arc::new(error))`. -/
def Errors.insert_with_default_key {ε : Type} (m : Errors ε) (e : ε) : Errors ε :=
  Errors.insert m ErrorKey.defaultKey e

/-- Models `Errors::remove(&key) -> Option<Arc<dyn Error>>`: returns the
removed value (if any) together with the collection afterwards (the Rust
method mutates `self` and returns the option). -/
def Errors.remove {ε : Type} (m : Errors ε) (k : ErrorKey) :
    Option ε × Errors ε :=
  (Errors.lookup m k, Errors.eraseKey m k)

/-- Models `Errors::is_empty()`: `self.0.is_empty()`. -/
def Errors.is_empty {ε : Type} (m : Errors ε) : Bool :=
  m.isEmpty

/-- Models `Errors::iter()` (and the consuming `into_iter`): the sequence of
`(key, error)` pairs held by the map, in unspecified order. -/
def Errors.iter {ε : Type} (m : Errors ε) : List (ErrorKey × ε) :=
  m

/-- Number of entries stored at key `k` (to state "exactly one entry"). -/
def Errors.countKey {ε : Type} (m : Errors ε) (k : ErrorKey) : Nat :=
  m.countP (fun p => decide (p.1 = k))

/-- The renderable output of `into_view`.  A success renders the success
value through its own `IntoView` implementation (abstracted as `content`);
a failure renders `().into_view(cx)`, the empty placeholder (`unit`). -/
inductive View (τ : Type) where
  | unit : View τ
  | content : τ → View τ
deriving DecidableEq, Repr

/-- All effects of one call to `<Result<T, E> as IntoView>::into_view`:
the returned view, the state of the ambient `Errors` collection after the
synchronous update (`none` when no handle was registered), the body of the
microtask scheduled by the `on_cleanup` registration (if one was
registered), and whether the no-boundary debug diagnostic fired. -/
structure RenderEffect (τ ε : Type) where
  view : View τ
  errors : Option (Errors ε)
  cleanup : Option (Errors ε → Errors ε)
  warned : Bool

/-- Models `<Result<T, E> as IntoView>::into_view(self, cx)`.

`client` models `cfg(all(target_arch = "wasm32", feature = "web"))` (the
builds in which the `on_cleanup`/`queue_microtask` registration compiles);
`debug` models `cfg(debug_assertions)`; `previous` is
`HydrationCtx::peek().previous`, the ambient render-position identity; and
`errors0` is the result of `use_context::<RwSignal<Errors>>(cx)` together
with the current contents of that signal.

 * `Ok(stuff)`: if a handle exists, `errors.update(|e| e.0.remove(&id))`;
   then `stuff.into_view(cx)`.
 * `Err(error)` with a handle: `errors.update(|e| e.insert(id, error))`,
   registration of an `on_cleanup` whose microtask runs
   `errors.update(|e| e.remove(&id))` (client builds only), and
   `().into_view(cx)`.
 * `Err(error)` without a handle: a debug-only `warn!`, and
   `().into_view(cx)`. -/
def Result.into_view {τ ε : Type} (client debug : Bool) (res : Except ε τ)
    (previous : String) (errors0 : Option (Errors ε)) : RenderEffect τ ε :=
  let id : ErrorKey := ErrorKey.mk previous
  match res with
  | Except.ok stuff =>
    match errors0 with
    | some errs =>
        { view := View.content stuff
          errors := some (Errors.eraseKey errs id)
          cleanup := none
          warned := false }
    | none =>
        { view := View.content stuff
          errors := none
          cleanup := none
          warned := false }
  | Except.error error =>
    match errors0 with
    | some errs =>
        { view := View.unit
          errors := some (Errors.insert errs id error)
          cleanup := if client then some (fun s => Errors.eraseKey s id) else none
          warned := false }
    | none =>
        { view := View.unit
          errors := none
          cleanup := none
          warned := debug }

/-! Supporting lemmas about the collection operations. -/

theorem lookup_eraseKey_self {ε : Type} (m : Errors ε) (k : ErrorKey) :
    Errors.lookup (Errors.eraseKey m k) k = none := by
  induction m with
  | nil => rfl
  | cons p rest ih =>
    obtain ⟨k2, e⟩ := p
    by_cases h : k2 = k
    · simpa [Errors.eraseKey, List.filter_cons, h] using ih
    · simpa [Errors.eraseKey, List.filter_cons, h, Errors.lookup] using ih

theorem lookup_insert_self {ε : Type} (m : Errors ε) (k : ErrorKey) (e : ε) :
    Errors.lookup (Errors.insert m k e) k = some e := by
  simp [Errors.insert, Errors.lookup]

theorem countKey_eraseKey_self {ε : Type} (m : Errors ε) (k : ErrorKey) :
    Errors.countKey (Errors.eraseKey m k) k = 0 := by
  induction m with
  | nil => rfl
  | cons p rest ih =>
    obtain ⟨k2, e⟩ := p
    by_cases h : k2 = k
    · simp only [Errors.eraseKey, List.filter_cons, h] at ih ⊢
      simpa [h] using ih
    · simpa [Errors.eraseKey, Errors.countKey, List.filter_cons,
        List.countP_cons, h] using ih

theorem countKey_insert_self {ε : Type} (m : Errors ε) (k : ErrorKey) (e : ε) :
    Errors.countKey (Errors.insert m k e) k = 1 := by
  simp [Errors.insert, Errors.countKey, List.countP_cons]
  simpa [Errors.countKey] using countKey_eraseKey_self m k

theorem eraseKey_of_lookup_none {ε : Type} (m : Errors ε) (k : ErrorKey)
    (h : Errors.lookup m k = none) : Errors.eraseKey m k = m := by
  induction m with
  | nil => rfl
  | cons p rest ih =>
    obtain ⟨k2, e⟩ := p
    by_cases hk : k2 = k
    · simp [Errors.lookup, hk] at h
    · simp only [Errors.lookup, if_neg hk] at h
      simp [Errors.eraseKey, List.filter_cons, hk] at ih ⊢
      exact ih h

/-! The claim theorems. -/

/-- C1: for every failing render result, when an ancestor boundary has
registered a reactive `Errors` handle in the ambient context, `into_view`
inserts the pair `(key, failure)` into the collection — the key derived
from the current render position — and the node itself renders as the empty
placeholder (the unit view). -/
theorem err_with_handle_inserts_and_renders_unit {τ ε : Type}
    (client debug : Bool) (error : ε) (previous : String) (errs : Errors ε) :
    (Result.into_view (τ := τ) client debug (Except.error error) previous
        (some errs)).view = View.unit ∧
    (Result.into_view (τ := τ) client debug (Except.error error) previous
        (some errs)).errors
      = some (Errors.insert errs (ErrorKey.mk previous) error) ∧
    Errors.lookup (Errors.insert errs (ErrorKey.mk previous) error)
        (ErrorKey.mk previous) = some error :=
  ⟨rfl, rfl, lookup_insert_self errs (ErrorKey.mk previous) error⟩

/-- C2: for every successful render result, if a reactive `Errors` handle
exists in the ambient context, `into_view` first removes any entry stored
at this node's position key and then renders the success value normally; if
no handle exists it renders the success value normally without touching any
collection. -/
theorem ok_removes_stale_and_renders_normally {τ ε : Type}
    (client debug : Bool) (stuff : τ) (previous : String) (errs : Errors ε) :
    (Result.into_view client debug (Except.ok stuff) previous
        (some errs)).view = View.content stuff ∧
    (Result.into_view client debug (Except.ok stuff) previous
        (some errs)).errors
      = some (Errors.eraseKey errs (ErrorKey.mk previous)) ∧
    Errors.lookup (Errors.eraseKey errs (ErrorKey.mk previous))
        (ErrorKey.mk previous) = none ∧
    (Result.into_view client debug (Except.ok stuff) previous
        (none : Option (Errors ε))).view = View.content stuff ∧
    (Result.into_view client debug (Except.ok stuff) previous
        (none : Option (Errors ε))).errors = none :=
  ⟨rfl, rfl, lookup_eraseKey_self errs (ErrorKey.mk previous), rfl, rfl⟩

/-- C3: for every failing render result, when no boundary has registered an
`Errors` handle, `into_view` never aborts (it is a total function in this
embedding, mirroring the Rust code, whose only branch here is a `warn!`),
returns the empty placeholder, modifies no collection and registers no
cleanup; the only effect is the diagnostic, which fires exactly in debug
builds. -/
theorem err_without_handle_is_silent {τ ε : Type}
    (client debug : Bool) (error : ε) (previous : String) :
    (Result.into_view (τ := τ) client debug (Except.error error) previous
        none).view = View.unit ∧
    (Result.into_view (τ := τ) client debug (Except.error error) previous
        none).errors = none ∧
    (Result.into_view (τ := τ) client debug (Except.error error) previous
        none).cleanup = none ∧
    (Result.into_view (τ := τ) client debug (Except.error error) previous
        none).warned = debug :=
  ⟨rfl, rfl, rfl, rfl⟩

/-- C4: a failing render under a registered boundary (in a client build,
where the deferred-cleanup registration compiles) registers a cleanup whose
microtask, once executed against whatever the collection holds at that
time (state `s`: no intervening success render has removed the key), leaves
the node's key absent from the collection. -/
theorem cleanup_microtask_removes_key {τ ε : Type}
    (debug : Bool) (error : ε) (previous : String) (errs s : Errors ε) :
    ∃ f, (Result.into_view (τ := τ) true debug (Except.error error) previous
        (some errs)).cleanup = some f ∧
      Errors.lookup (f s) (ErrorKey.mk previous) = none :=
  ⟨fun s2 => Errors.eraseKey s2 (ErrorKey.mk previous), rfl,
    lookup_eraseKey_self s (ErrorKey.mk previous)⟩

/-- C5: for every key `k`, error `e` and collection, `insert k e` followed
by `remove k` returns `e` and leaves a collection in which `k` is no longer
present. -/
theorem insert_then_remove_returns_value {ε : Type}
    (m : Errors ε) (k : ErrorKey) (e : ε) :
    (Errors.remove (Errors.insert m k e) k).1 = some e ∧
    Errors.lookup (Errors.remove (Errors.insert m k e) k).2 k = none :=
  ⟨lookup_insert_self m k e, lookup_eraseKey_self (Errors.insert m k e) k⟩

/-- C6: for every key `k`, errors `e1`, `e2` and collection, `insert k e1`
followed by `insert k e2` leaves exactly one entry at `k`, whose value is
`e2` (last write wins). -/
theorem insert_insert_last_write_wins {ε : Type}
    (m : Errors ε) (k : ErrorKey) (e1 e2 : ε) :
    Errors.countKey (Errors.insert (Errors.insert m k e1) k e2) k = 1 ∧
    Errors.lookup (Errors.insert (Errors.insert m k e1) k e2) k = some e2 :=
  ⟨countKey_insert_self (Errors.insert m k e1) k e2,
    lookup_insert_self (Errors.insert m k e1) k e2⟩

/-- C7: for every collection and key `k` not present in it, `remove k`
returns `none` and leaves the collection exactly unchanged. -/
theorem remove_absent_is_noop {ε : Type} (m : Errors ε) (k : ErrorKey)
    (h : Errors.lookup m k = none) :
    Errors.remove m k = (none, m) := by
  unfold Errors.remove
  rw [h, eraseKey_of_lookup_none m k h]

/-- C7 witness: removing the absent key "b" from the singleton collection at
key "a" returns `none` and the unchanged collection. -/
theorem remove_absent_is_noop_witness :
    Errors.remove ([(ErrorKey.mk "a", "x")] : Errors String)
        (ErrorKey.mk "b")
      = (none, [(ErrorKey.mk "a", "x")]) :=
  remove_absent_is_noop [(ErrorKey.mk "a", "x")] (ErrorKey.mk "b") (by decide)

/-- C8: for every collection, `is_empty` returns `true` if and only if
iterating the collection yields no `(key, error)` pairs. -/
theorem is_empty_iff_iter_yields_nothing {ε : Type} (m : Errors ε) :
    Errors.is_empty m = true ↔ Errors.iter m = [] := by
  cases m <;> simp [Errors.is_empty, Errors.iter]

/-- C9: two successive `insert_with_default_key` calls store both errors
under the canonical default key, so the second overwrites the first and at
most one default-keyed entry exists. -/
theorem insert_with_default_key_overwrites {ε : Type}
    (m : Errors ε) (e1 e2 : ε) :
    Errors.lookup
        (Errors.insert_with_default_key
          (Errors.insert_with_default_key m e1) e2)
        ErrorKey.defaultKey = some e2 ∧
    Errors.countKey
        (Errors.insert_with_default_key
          (Errors.insert_with_default_key m e1) e2)
        ErrorKey.defaultKey = 1 :=
  ⟨lookup_insert_self (Errors.insert_with_default_key m e1)
      ErrorKey.defaultKey e2,
    countKey_insert_self (Errors.insert_with_default_key m e1)
      ErrorKey.defaultKey e2⟩

/-- C10: the default `ErrorKey` equals the key constructed from the empty
string, `insert_with_default_key` stores under that very key, and an entry
inserted at the empty-string key shares a single slot with default-keyed
errors: inserting with the default key afterwards overwrites it and exactly
one entry remains at that key. -/
theorem default_key_is_empty_string_key {ε : Type} (m : Errors ε)
    (e e1 e2 : ε) :
    ErrorKey.defaultKey = ErrorKey.fromString "" ∧
    Errors.insert_with_default_key m e
      = Errors.insert m (ErrorKey.fromString "") e ∧
    Errors.lookup
        (Errors.insert_with_default_key
          (Errors.insert m (ErrorKey.fromString "") e1) e2)
        (ErrorKey.fromString "") = some e2 ∧
    Errors.countKey
        (Errors.insert_with_default_key
          (Errors.insert m (ErrorKey.fromString "") e1) e2)
        (ErrorKey.fromString "") = 1 :=
  ⟨rfl, rfl,
    lookup_insert_self (Errors.insert m (ErrorKey.fromString "") e1)
      (ErrorKey.fromString "") e2,
    countKey_insert_self (Errors.insert m (ErrorKey.fromString "") e1)
      (ErrorKey.fromString "") e2⟩

end LeptosErrors
